import Mathlib

/-!
Shallow embedding of the LanguageSystem repository's language-selection core:
`src/features/language/LanguageEnum.{h,cpp}` and
`src/features/language/LanguageController.{h,cpp}`.

External collaborators (Qt translator store, QSettings, QLocale) are modelled
as an explicit environment `Env`:
  - `Env.loadable c` models whether `QTranslator::load(":/translations/app_<c>.qm")`
    succeeds for language code `c` (the resource path is determined by the code
    via the fixed naming convention, so indexing the oracle by the code is
    equivalent to indexing it by the path);
  - `Env.sysLocaleName` models `QLocale::system().name()`;
  - `Env.saved` models the value stored under key "language" in `QSettings`
    at startup (`none` when the key is absent; `QSettings::value(...).toString()`
    then yields the empty string).

Observable effects (Qt signal emissions, settings writes, translator load
attempts) are recorded in an event trace; `qDebug`/`qWarning`/`qCritical`
log lines are not observable effects and are not traced.
-/

namespace Language

/-- `Language::Code` from LanguageEnum.h. -/
inductive Code where
  | English
  | Spanish
  | French
deriving DecidableEq, Repr

/-- `Language::toString` from LanguageEnum.cpp.  (The C++ `return "en"` after
the exhaustive switch is unreachable for valid enum values.) -/
def toString (language : Code) : String :=
  match language with
  | Code.English => "en"
  | Code.Spanish => "es"
  | Code.French => "fr"

/-- `Language::fromString` from LanguageEnum.cpp. -/
def fromString (languageCode : String) : Code :=
  if languageCode = "en" then Code.English
  else if languageCode = "es" then Code.Spanish
  else if languageCode = "fr" then Code.French
  else Code.English

/-- `Language::getAllCodes` from LanguageEnum.cpp. -/
def getAllCodes : List String := ["en", "es", "fr"]

/-- `Language::isSupported` from LanguageEnum.cpp. -/
def isSupported (languageCode : String) : Bool :=
  languageCode = "en" || languageCode = "es" || languageCode = "fr"

end Language

/-- A Qt signal emission of `LanguageController` (LanguageController.h `signals:`). -/
inductive Sig where
  | currentLanguageChanged
  | languageChanged
  | languageLoadFailed (language reason : String)
deriving DecidableEq, Repr

/-- One observable effect of the controller: a signal emission, a settings
write, or a translator load attempt (with its outcome). -/
inductive Event where
  | emit (s : Sig)
  | write (key value : String)
  | attempt (language : String) (ok : Bool)
deriving DecidableEq, Repr

/-- The signals emitted along a trace, in order. -/
def emitsOf : List Event → List Sig
  | [] => []
  | Event.emit s :: t => s :: emitsOf t
  | Event.write _ _ :: t => emitsOf t
  | Event.attempt _ _ :: t => emitsOf t

/-- The settings writes performed along a trace, in order. -/
def writesOf : List Event → List (String × String)
  | [] => []
  | Event.write k v :: t => (k, v) :: writesOf t
  | Event.emit _ :: t => writesOf t
  | Event.attempt _ _ :: t => writesOf t

/-- The translator resources attempted along a trace, in order. -/
def attemptsOf : List Event → List String
  | [] => []
  | Event.attempt l _ :: t => l :: attemptsOf t
  | Event.emit _ :: t => attemptsOf t
  | Event.write _ _ :: t => attemptsOf t

/-- The external world of the controller. -/
structure Env where
  /-- Whether the translation resource `:/translations/app_<c>.qm` loads. -/
  loadable : String → Bool
  /-- `QLocale::system().name()`, e.g. `"es_ES"`. -/
  sysLocaleName : String
  /-- The persisted value under settings key "language" at startup. -/
  saved : Option String

/-- The OS locale's primary subtag: `QLocale::system().name().left(2)`. -/
def Env.sysLang (env : Env) : String := env.sysLocaleName.take 2

/-- The mutable state of a `LanguageController` instance: `m_currentLanguage`,
which translator resource is currently installed (`none` when no translator is
attached), and the process-external persisted preference under key
"language". -/
structure LCState where
  currentLanguage : String
  translator : Option String
  persistedLanguage : Option String
deriving DecidableEq, Repr

namespace LanguageController

/-- `m_availableLanguages`, populated in the constructor
(LanguageController.cpp line 18). -/
def availableLanguages : List String := ["en", "es", "fr"]

/-- `LanguageController::tryLoadLanguage` (LanguageController.cpp lines
133-149): remove the current translator, then try to load and install the
resource for `language`.  Returns the success flag, the new state and the
trace of effects. -/
def tryLoadLanguage (env : Env) (st : LCState) (language : String) :
    Bool × LCState × List Event :=
  let st0 := { st with translator := none }
  if env.loadable language then
    (true, { st0 with translator := some language }, [Event.attempt language true])
  else
    (false, st0, [Event.attempt language false])

/-- `LanguageController::loadLanguage` (LanguageController.cpp lines 105-131):
try the requested language, then the system language when it differs, then
English when the request was not already English; the two fallback hops update
`m_currentLanguage` and emit `currentLanguageChanged`.  The `&&` conditions of
the C++ are modelled with explicit short-circuit: a skipped attempt leaves the
state untouched and contributes no events. -/
def loadLanguage (env : Env) (st : LCState) (language : String) :
    LCState × List Event :=
  let (ok1, st1, t1) := tryLoadLanguage env st language
  if ok1 then (st1, t1)
  else
    let systemLang := env.sysLocaleName.take 2
    let (ok2, st2, t2) :=
      if language = systemLang then (false, st1, ([] : List Event))
      else tryLoadLanguage env st1 systemLang
    if ok2 then
      ({ st2 with currentLanguage := systemLang },
        t1 ++ t2 ++ [Event.emit Sig.currentLanguageChanged])
    else
      let (ok3, st3, t3) :=
        if language = "en" then (false, st2, ([] : List Event))
        else tryLoadLanguage env st2 "en"
      if ok3 then
        ({ st3 with currentLanguage := "en" },
          t1 ++ t2 ++ t3 ++ [Event.emit Sig.currentLanguageChanged])
      else
        (st3, t1 ++ t2 ++ t3)

/-- `LanguageController::setCurrentLanguage` (LanguageController.cpp lines
42-74): reject empty and unsupported input with a `languageLoadFailed`
emission, no-op when the language is already current, otherwise set the
current language, persist it, run `loadLanguage`, and unconditionally emit
`currentLanguageChanged` and `languageChanged`. -/
def setCurrentLanguage (env : Env) (st : LCState) (language : String) :
    LCState × List Event :=
  if language.isEmpty then
    (st, [Event.emit (Sig.languageLoadFailed language "Empty language code provided")])
  else if !(availableLanguages.contains language) then
    (st, [Event.emit (Sig.languageLoadFailed language
      ("Unsupported language. Available languages: " ++
        String.intercalate ", " availableLanguages))])
  else if st.currentLanguage = language then
    (st, [])
  else
    let st1 := { st with currentLanguage := language, persistedLanguage := some language }
    let r := loadLanguage env st1 language
    (r.1, Event.write "language" language :: r.2 ++
      [Event.emit Sig.currentLanguageChanged, Event.emit Sig.languageChanged])

/-- `LanguageController::initializeLanguage` (LanguageController.cpp lines
81-103): the persisted preference when non-empty and available, else the OS
locale's primary subtag when available, else "en". -/
def initializeLanguage (env : Env) : String :=
  let savedLanguage := env.saved.getD ""
  if !savedLanguage.isEmpty && availableLanguages.contains savedLanguage then
    savedLanguage
  else
    let systemLocale := env.sysLocaleName.take 2
    if availableLanguages.contains systemLocale then systemLocale
    else "en"

/-- The `LanguageController` constructor (LanguageController.cpp lines 11-25):
start with no translator installed and the persisted preference as found,
resolve the initial language with `initializeLanguage`, then run
`loadLanguage` on it. -/
def construct (env : Env) : LCState × List Event :=
  let lang := initializeLanguage env
  let st0 : LCState :=
    { currentLanguage := lang, translator := none, persistedLanguage := env.saved }
  loadLanguage env st0 lang

end LanguageController

/-- Environment where only a German resource is loadable and the OS locale is
German (German is not in the supported set). -/
def envDeLoadable : Env :=
  { loadable := fun s => s == "de", sysLocaleName := "de_DE", saved := none }

/-- Environment where exactly the supported languages' resources are loadable,
as in the documented resource store (one bundled resource per supported
language). -/
def envSupportedOnly : Env :=
  { loadable := Language.isSupported, sysLocaleName := "fr_FR", saved := none }

/-- Environment with persisted preference "fr" and an American OS locale. -/
def envSavedFr : Env :=
  { loadable := Language.isSupported, sysLocaleName := "en_US", saved := some "fr" }

/-- Environment with no persisted preference and Spanish OS locale. -/
def envLocaleEs : Env :=
  { loadable := Language.isSupported, sysLocaleName := "es_ES", saved := none }

/-- Environment with no persisted preference, German OS locale, and only the
English resource loadable. -/
def envLocaleDe : Env :=
  { loadable := fun s => s == "en", sysLocaleName := "de_DE", saved := none }

/-- Environment where only the French resource is loadable and the OS locale
is French. -/
def envFrOnly : Env :=
  { loadable := fun s => s == "fr", sysLocaleName := "fr_FR", saved := none }

/-- Environment where no resource is loadable at all. -/
def envNoneLoadable : Env :=
  { loadable := fun _ => false, sysLocaleName := "fr_FR", saved := none }

/-- A state with English current, installed and persisted. -/
def stEnglish : LCState :=
  { currentLanguage := "en", translator := some "en", persistedLanguage := some "en" }

/-- A state with Spanish current and nothing persisted. -/
def stSpanish : LCState :=
  { currentLanguage := "es", translator := none, persistedLanguage := none }

/-- Whether the Load Algorithm, run on candidate `language`, ends in a
successful fallback hop (OS-subtag hop or English hop) — exactly the runs in
which `loadLanguage` emits its own `currentLanguageChanged`. -/
def fallbackHop (env : Env) (language : String) : Bool :=
  !env.loadable language &&
    ((language != env.sysLocaleName.take 2 &&
        env.loadable (env.sysLocaleName.take 2)) ||
      (language != "en" && env.loadable "en"))

namespace LanguageController

/-- `availableLanguages.contains` coincides with `Language::isSupported`. -/
lemma contains_eq_isSupported (s : String) :
    availableLanguages.contains s = Language.isSupported s := by
  by_cases h1 : s = "en" <;> by_cases h2 : s = "es" <;> by_cases h3 : s = "fr" <;>
    simp [availableLanguages, Language.isSupported, h1, h2, h3]

/-- Membership in `m_availableLanguages` coincides with `Language::isSupported`. -/
lemma mem_availableLanguages (s : String) :
    s ∈ availableLanguages ↔ Language.isSupported s = true := by
  simp [availableLanguages, Language.isSupported, or_assoc]

/-- Zeta-reduced form of `initializeLanguage`. -/
lemma initializeLanguage_eq (env : Env) :
    initializeLanguage env =
      (if (!(env.saved.getD "").isEmpty &&
            availableLanguages.contains (env.saved.getD "")) = true
       then env.saved.getD ""
       else if availableLanguages.contains (env.sysLocaleName.take 2) = true
       then env.sysLocaleName.take 2
       else "en") := rfl

/-- A supported code is non-empty. -/
lemma isSupported_not_empty (s : String) (h : Language.isSupported s = true) :
    s.isEmpty = false := by
  simp only [Language.isSupported, Bool.or_eq_true, decide_eq_true_eq] at h
  rcases h with (h | h) | h <;> subst h <;> decide

/-- Closed-form characterization of `loadLanguage`, by cases on which attempt
succeeds. -/
lemma loadLanguage_eq (env : Env) (st : LCState) (language : String) :
    loadLanguage env st language =
      (let sys := env.sysLocaleName.take 2
      if env.loadable language = true then
        ({ st with translator := some language }, [Event.attempt language true])
      else if language ≠ sys ∧ env.loadable sys = true then
        ({ st with translator := some sys, currentLanguage := sys },
          [Event.attempt language false, Event.attempt sys true,
            Event.emit Sig.currentLanguageChanged])
      else if language ≠ "en" ∧ env.loadable "en" = true then
        ({ st with translator := some "en", currentLanguage := "en" },
          Event.attempt language false ::
            (if language = sys then [] else [Event.attempt sys false]) ++
            [Event.attempt "en" true, Event.emit Sig.currentLanguageChanged])
      else
        ({ st with translator := none },
          Event.attempt language false ::
            (if language = sys then [] else [Event.attempt sys false]) ++
            (if language = "en" then [] else [Event.attempt "en" false]))) := by
  unfold loadLanguage tryLoadLanguage
  by_cases h1 : env.loadable language = true <;>
    by_cases h2 : language = env.sysLocaleName.take 2 <;>
    by_cases h2' : env.loadable (env.sysLocaleName.take 2) = true <;>
    by_cases h3 : language = "en" <;>
    by_cases h4 : env.loadable "en" = true <;>
    simp_all

end LanguageController

namespace LanguageController

lemma emitsOf_append (a b : List Event) :
    emitsOf (a ++ b) = emitsOf a ++ emitsOf b := by
  induction a with
  | nil => rfl
  | cons e t ih => cases e <;> simp [emitsOf, ih]

lemma writesOf_append (a b : List Event) :
    writesOf (a ++ b) = writesOf a ++ writesOf b := by
  induction a with
  | nil => rfl
  | cons e t ih => cases e <;> simp [writesOf, ih]

lemma attemptsOf_append (a b : List Event) :
    attemptsOf (a ++ b) = attemptsOf a ++ attemptsOf b := by
  induction a with
  | nil => rfl
  | cons e t ih => cases e <;> simp [attemptsOf, ih]

/-- `loadLanguage` never touches the persisted preference. -/
lemma loadLanguage_persisted (env : Env) (st : LCState) (language : String) :
    (loadLanguage env st language).1.persistedLanguage = st.persistedLanguage := by
  unfold loadLanguage tryLoadLanguage
  by_cases h1 : env.loadable language = true <;>
    by_cases h2 : language = env.sysLocaleName.take 2 <;>
    by_cases h2' : env.loadable (env.sysLocaleName.take 2) = true <;>
    by_cases h3 : language = "en" <;>
    by_cases h4 : env.loadable "en" = true <;>
    simp_all

/-- `loadLanguage` performs no settings write. -/
lemma loadLanguage_writesOf (env : Env) (st : LCState) (language : String) :
    writesOf (loadLanguage env st language).2 = [] := by
  unfold loadLanguage tryLoadLanguage
  by_cases h1 : env.loadable language = true <;>
    by_cases h2 : language = env.sysLocaleName.take 2 <;>
    by_cases h2' : env.loadable (env.sysLocaleName.take 2) = true <;>
    by_cases h3 : language = "en" <;>
    by_cases h4 : env.loadable "en" = true <;>
    simp_all [writesOf]

/-- Startup resolution always yields a supported code. -/
lemma isSupported_initializeLanguage (env : Env) :
    Language.isSupported (initializeLanguage env) = true := by
  simp only [initializeLanguage]
  split
  · rename_i h
    simp only [Bool.and_eq_true] at h
    rw [← contains_eq_isSupported]
    exact h.2
  · split
    · rename_i h'
      rw [← contains_eq_isSupported]
      exact h'
    · decide

/-- If every loadable resource is for a supported code, `loadLanguage`
keeps `currentLanguage` in the supported set. -/
lemma loadLanguage_isSupported (env : Env) (st : LCState) (language : String)
    (hres : ∀ s, env.loadable s = true → Language.isSupported s = true)
    (hst : Language.isSupported st.currentLanguage = true) :
    Language.isSupported (loadLanguage env st language).1.currentLanguage = true := by
  rw [loadLanguage_eq]
  by_cases h1 : env.loadable language = true
  · simpa [h1] using hst
  · by_cases h2 : language ≠ env.sysLocaleName.take 2 ∧
        env.loadable (env.sysLocaleName.take 2) = true
    · simpa [h1, h2] using hres _ h2.2
    · by_cases h3 : language ≠ "en" ∧ env.loadable "en" = true
      · simp [h1, h2, h3, Language.isSupported]
      · simpa [h1, h2, h3] using hst

end LanguageController

namespace LanguageController

/-- On a validated, state-changing request, `setCurrentLanguage` persists the
request, runs `loadLanguage` on the tentatively updated state, and appends the
unconditional notification pair. -/
lemma setCurrentLanguage_valid (env : Env) (st : LCState) (language : String)
    (h1 : language.isEmpty = false) (h2 : Language.isSupported language = true)
    (h3 : ¬ st.currentLanguage = language) :
    setCurrentLanguage env st language =
      ((loadLanguage env
          { st with currentLanguage := language, persistedLanguage := some language }
          language).1,
        Event.write "language" language ::
          (loadLanguage env
            { st with currentLanguage := language, persistedLanguage := some language }
            language).2 ++
          [Event.emit Sig.currentLanguageChanged, Event.emit Sig.languageChanged]) := by
  have hmem : language ∈ availableLanguages := by
    have := (contains_eq_isSupported language).trans h2
    simpa using this
  simp [setCurrentLanguage, h1, h3, hmem]

end LanguageController

/-- C1: the claimed invariant fails on the code as written: with OS locale
"de_DE" and a loadable German resource (and no supported resource loadable),
construction itself already leaves `currentLanguage = "de"`, outside the
supported set, because the Load Algorithm's OS-subtag hop assigns the subtag
without validating it (LanguageController.cpp line 116). -/
theorem spec_c1_counterexample :
    Language.isSupported
      ((LanguageController.construct envDeLoadable).1.currentLanguage) = false ∧
    (LanguageController.construct envDeLoadable).1.currentLanguage = "de" := by
  decide

/-- C1 (amended): provided every loadable translation resource is for a
supported code — as in the documented resource store, which bundles one
resource per supported language — `currentLanguage` is a member of
{"en", "es", "fr"} after construction and is preserved by every call to
`setCurrentLanguage`, including the Load Algorithm's fallback hops. -/
theorem spec_c1_invariant (env : Env)
    (hres : ∀ s, env.loadable s = true → Language.isSupported s = true) :
    Language.isSupported (LanguageController.construct env).1.currentLanguage = true ∧
    ∀ st language, Language.isSupported st.currentLanguage = true →
      Language.isSupported
        (LanguageController.setCurrentLanguage env st language).1.currentLanguage
        = true := by
  constructor
  · simp only [LanguageController.construct]
    exact LanguageController.loadLanguage_isSupported env _ _ hres
      (LanguageController.isSupported_initializeLanguage env)
  · intro st language hst
    by_cases hE : language.isEmpty = true
    · simpa [LanguageController.setCurrentLanguage, hE] using hst
    · by_cases hC : language ∈ LanguageController.availableLanguages
      · by_cases hEq : st.currentLanguage = language
        · simpa [LanguageController.setCurrentLanguage, hE, hC, hEq] using hst
        · have hsup : Language.isSupported language = true := by
            rw [← LanguageController.contains_eq_isSupported]
            simpa using hC
          have hload := LanguageController.loadLanguage_isSupported env
            { st with currentLanguage := language, persistedLanguage := some language }
            language hres hsup
          simpa [LanguageController.setCurrentLanguage, hE, hC, hEq] using hload
      · simpa [LanguageController.setCurrentLanguage, hE, hC] using hst

/-- Witness for the amended C1 invariant at a concrete environment and state. -/
theorem spec_c1_invariant_witness :
    Language.isSupported
      (LanguageController.construct envSupportedOnly).1.currentLanguage = true ∧
    Language.isSupported
      (LanguageController.setCurrentLanguage envSupportedOnly stEnglish "es").1.currentLanguage
      = true :=
  ⟨(spec_c1_invariant envSupportedOnly (fun _ hs => hs)).1,
    (spec_c1_invariant envSupportedOnly (fun _ hs => hs)).2 stEnglish "es" (by decide)⟩

/-- C2: the Load Algorithm attempts exactly the candidate's resource first,
then the OS locale's primary subtag only when it differs from the candidate,
then English only when the candidate is not already English, stopping at the
first success; a successful fallback hop sets `currentLanguage` to the
fallback code and emits exactly one `currentLanguageChanged`; no other
resource is ever attempted and the attempts happen in exactly this order. -/
theorem spec_c2_load_algorithm (env : Env) (st : LCState) (language : String) :
    attemptsOf (LanguageController.loadLanguage env st language).2 =
      (if env.loadable language = true then [language]
       else if language ≠ env.sysLocaleName.take 2 ∧
           env.loadable (env.sysLocaleName.take 2) = true then
         [language, env.sysLocaleName.take 2]
       else [language] ++
         (if language = env.sysLocaleName.take 2 then []
          else [env.sysLocaleName.take 2]) ++
         (if language = "en" then [] else ["en"])) ∧
    (LanguageController.loadLanguage env st language).1.currentLanguage =
      (if env.loadable language = true then st.currentLanguage
       else if language ≠ env.sysLocaleName.take 2 ∧
           env.loadable (env.sysLocaleName.take 2) = true then
         env.sysLocaleName.take 2
       else if language ≠ "en" ∧ env.loadable "en" = true then "en"
       else st.currentLanguage) ∧
    emitsOf (LanguageController.loadLanguage env st language).2 =
      (if env.loadable language = true then []
       else if (language ≠ env.sysLocaleName.take 2 ∧
             env.loadable (env.sysLocaleName.take 2) = true) ∨
           (language ≠ "en" ∧ env.loadable "en" = true) then
         [Sig.currentLanguageChanged]
       else []) := by
  simp only [LanguageController.loadLanguage_eq]
  by_cases h1 : env.loadable language = true <;>
    by_cases h4 : language = env.sysLocaleName.take 2 <;>
    by_cases h2' : env.loadable (env.sysLocaleName.take 2) = true <;>
    by_cases h5 : language = "en" <;>
    by_cases h6 : env.loadable "en" = true <;>
    simp_all [emitsOf, attemptsOf]

/-- C3: startup resolution returns the persisted preference when it is
non-empty and supported, whatever the OS locale is (so without consulting
it); otherwise the first two characters of the OS locale name when that
subtag is supported; otherwise "en".  In particular, with no persisted
preference and OS locale "de_DE" it resolves to "en", and — when no German
resource is loadable, as in the documented resource store — the constructed
controller's `currentLanguage` is "en". -/
theorem spec_c3_startup_resolution (env : Env) :
    (∀ s : String, env.saved = some s → s.isEmpty = false →
      Language.isSupported s = true →
      LanguageController.initializeLanguage env = s) ∧
    ((env.saved.getD "").isEmpty = true ∨
        Language.isSupported (env.saved.getD "") = false →
      Language.isSupported (env.sysLocaleName.take 2) = true →
      LanguageController.initializeLanguage env = env.sysLocaleName.take 2) ∧
    ((env.saved.getD "").isEmpty = true ∨
        Language.isSupported (env.saved.getD "") = false →
      Language.isSupported (env.sysLocaleName.take 2) = false →
      LanguageController.initializeLanguage env = "en") ∧
    (env.saved = none → env.sysLocaleName = "de_DE" →
      LanguageController.initializeLanguage env = "en" ∧
      (env.loadable "de" = false →
        (LanguageController.construct env).1.currentLanguage = "en")) := by
  refine ⟨?_, ?_, ?_, ?_⟩
  · intro s hs hne hsup
    have hmem : s ∈ LanguageController.availableLanguages :=
      (LanguageController.mem_availableLanguages s).mpr hsup
    simp [LanguageController.initializeLanguage_eq, hs, hne, hmem]
  · intro hbad hsys
    have hsmem : env.sysLocaleName.take 2 ∈ LanguageController.availableLanguages :=
      (LanguageController.mem_availableLanguages _).mpr hsys
    rcases hbad with hb | hb
    · simp [LanguageController.initializeLanguage_eq, hb, hsmem]
    · have hnm : env.saved.getD "" ∉ LanguageController.availableLanguages := by
        intro hm
        rw [LanguageController.mem_availableLanguages] at hm
        rw [hm] at hb
        cases hb
      simp [LanguageController.initializeLanguage_eq, hnm, hsmem]
  · intro hbad hsys
    have hsnm : env.sysLocaleName.take 2 ∉ LanguageController.availableLanguages := by
      intro hm
      rw [LanguageController.mem_availableLanguages] at hm
      rw [hm] at hsys
      cases hsys
    rcases hbad with hb | hb
    · simp [LanguageController.initializeLanguage_eq, hb, hsnm]
    · have hnm : env.saved.getD "" ∉ LanguageController.availableLanguages := by
        intro hm
        rw [LanguageController.mem_availableLanguages] at hm
        rw [hm] at hb
        cases hb
      simp [LanguageController.initializeLanguage_eq, hnm, hsnm]
  · intro hnone hde
    have hinit : LanguageController.initializeLanguage env = "en" := by
      rw [LanguageController.initializeLanguage_eq, hnone, hde]
      decide
    refine ⟨hinit, fun hdeload => ?_⟩
    have hsys : env.sysLocaleName.take 2 = "de" := by
      rw [hde]
      decide
    simp only [LanguageController.construct, hinit]
    rw [LanguageController.loadLanguage_eq]
    by_cases hen : env.loadable "en" = true
    · simp [hen]
    · have hcond2 : ¬(("en" : String) ≠ env.sysLocaleName.take 2 ∧
          env.loadable (env.sysLocaleName.take 2) = true) := by
        rw [hsys]
        simp [hdeload]
      have hcond3 : ¬(("en" : String) ≠ "en" ∧ env.loadable "en" = true) := by simp
      simp [hen, hcond2, hcond3]

/-- Witness for C3: the three resolution branches and the "de_DE" instance at
concrete environments. -/
theorem spec_c3_startup_resolution_witness :
    LanguageController.initializeLanguage envSavedFr = "fr" ∧
    LanguageController.initializeLanguage envLocaleEs = "es" ∧
    LanguageController.initializeLanguage envLocaleDe = "en" ∧
    (LanguageController.construct envLocaleDe).1.currentLanguage = "en" := by
  refine ⟨?_, ?_, ?_, ?_⟩
  · exact (spec_c3_startup_resolution envSavedFr).1 "fr" rfl (by decide) (by decide)
  · have h := (spec_c3_startup_resolution envLocaleEs).2.1 (Or.inl (by decide)) (by decide)
    rw [h]
    decide
  · exact ((spec_c3_startup_resolution envLocaleDe).2.2.2 rfl rfl).1
  · exact ((spec_c3_startup_resolution envLocaleDe).2.2.2 rfl rfl).2 (by decide)

/-- C4: false as stated — when the requested resource fails to load and a
fallback hop succeeds, the hop's own `currentLanguageChanged`
(LanguageController.cpp line 117) precedes the caller's unconditional pair,
so the validated, state-changing call emits two `currentLanguageChanged`
notifications, not one: from current "en", requesting "es" (non-empty,
supported, different) with only the "fr" resource loadable emits
[currentLanguageChanged, currentLanguageChanged, languageChanged]. -/
theorem spec_c4_counterexample :
    ("es" : String).isEmpty = false ∧ Language.isSupported "es" = true ∧
    stEnglish.currentLanguage ≠ "es" ∧
    emitsOf (LanguageController.setCurrentLanguage envFrOnly stEnglish "es").2 =
      [Sig.currentLanguageChanged, Sig.currentLanguageChanged, Sig.languageChanged] := by
  decide

/-- C4 (amended): every validated, state-changing call emits exactly one
generic `languageChanged`, and emits `currentLanguageChanged` exactly once
when the requested language's own resource loads or when every fallback
fails, but exactly twice when a fallback hop succeeds (once from the hop
inside the Load Algorithm, once unconditionally from `setCurrentLanguage`);
no failure notification is emitted. -/
theorem spec_c4_notification_pair (env : Env) (st : LCState) (language : String)
    (h1 : language.isEmpty = false) (h2 : Language.isSupported language = true)
    (h3 : st.currentLanguage ≠ language) :
    emitsOf (LanguageController.setCurrentLanguage env st language).2 =
      (if fallbackHop env language = true then
        [Sig.currentLanguageChanged, Sig.currentLanguageChanged, Sig.languageChanged]
       else [Sig.currentLanguageChanged, Sig.languageChanged]) := by
  rw [LanguageController.setCurrentLanguage_valid env st language h1 h2 h3]
  rw [LanguageController.loadLanguage_eq]
  unfold fallbackHop
  by_cases ha : env.loadable language = true <;>
    by_cases hb : language = env.sysLocaleName.take 2 <;>
    by_cases hc : env.loadable (env.sysLocaleName.take 2) = true <;>
    by_cases hd : language = "en" <;>
    by_cases he : env.loadable "en" = true <;>
    simp_all [emitsOf, LanguageController.emitsOf_append]

/-- Witness for the amended C4 at concrete inputs, one per branch. -/
theorem spec_c4_notification_pair_witness :
    fallbackHop envFrOnly "en" = true ∧
    emitsOf (LanguageController.setCurrentLanguage envFrOnly stSpanish "en").2 =
      [Sig.currentLanguageChanged, Sig.currentLanguageChanged, Sig.languageChanged] ∧
    fallbackHop envSupportedOnly "es" = false ∧
    emitsOf (LanguageController.setCurrentLanguage envSupportedOnly stEnglish "es").2 =
      [Sig.currentLanguageChanged, Sig.languageChanged] := by
  refine ⟨by decide, ?_, by decide, ?_⟩
  · have h := spec_c4_notification_pair envFrOnly stSpanish "en"
      (by decide) (by decide) (by decide)
    rw [h]
    decide
  · have h := spec_c4_notification_pair envSupportedOnly stEnglish "es"
      (by decide) (by decide) (by decide)
    rw [h]
    decide

/-- C5: an empty or unsupported request leaves the state (current language,
installed translator, persisted preference) completely unchanged, attempts no
resource load and performs no settings write, and emits exactly one
`languageLoadFailed` carrying the invalid input and a human-readable reason;
for a non-empty unsupported input the reason enumerates the supported set
"en, es, fr". -/
theorem spec_c5_invalid_input (env : Env) (st : LCState) (language : String)
    (h : language.isEmpty = true ∨ Language.isSupported language = false) :
    LanguageController.setCurrentLanguage env st language =
      (st, [Event.emit (Sig.languageLoadFailed language
        (if language.isEmpty = true then "Empty language code provided"
         else "Unsupported language. Available languages: en, es, fr"))]) := by
  by_cases hE : language.isEmpty = true
  · simp [LanguageController.setCurrentLanguage, hE]
  · have hsup : Language.isSupported language = false := by
      rcases h with h | h
      · exact absurd h hE
      · exact h
    have hne1 : language ≠ "en" := fun he => absurd (he ▸ hsup) (by decide)
    have hne2 : language ≠ "es" := fun he => absurd (he ▸ hsup) (by decide)
    have hne3 : language ≠ "fr" := fun he => absurd (he ▸ hsup) (by decide)
    have hstr : ("Unsupported language. Available languages: " ++
        String.intercalate ", " LanguageController.availableLanguages) =
        "Unsupported language. Available languages: en, es, fr" := by decide
    simp [LanguageController.setCurrentLanguage, hE, hne1, hne2, hne3, hstr]
    intro hm
    rw [LanguageController.mem_availableLanguages] at hm
    simp [hsup] at hm

/-- Witness for C5 at the empty input and at the unsupported input "de". -/
theorem spec_c5_invalid_input_witness :
    LanguageController.setCurrentLanguage envSupportedOnly stEnglish "" =
      (stEnglish, [Event.emit (Sig.languageLoadFailed ""
        "Empty language code provided")]) ∧
    LanguageController.setCurrentLanguage envSupportedOnly stEnglish "de" =
      (stEnglish, [Event.emit (Sig.languageLoadFailed "de"
        "Unsupported language. Available languages: en, es, fr")]) := by
  constructor
  · have h := spec_c5_invalid_input envSupportedOnly stEnglish "" (Or.inl (by decide))
    rw [h]
    decide
  · have h := spec_c5_invalid_input envSupportedOnly stEnglish "de" (Or.inr (by decide))
    rw [h]
    decide

/-- C6: when the requested candidate, the OS locale's subtag and English all
fail to load, `loadLanguage` leaves `currentLanguage` at the original
candidate (the caller set it before invoking the algorithm) and emits no
notification at all; being a total function of the embedding, it raises no
exception (the C++ only writes a `qCritical` log line, which is not an
observable effect). -/
theorem spec_c6_total_failure (env : Env) (st : LCState) (language : String)
    (hcur : st.currentLanguage = language)
    (h1 : env.loadable language = false)
    (h2 : env.loadable (env.sysLocaleName.take 2) = false)
    (h3 : env.loadable "en" = false) :
    (LanguageController.loadLanguage env st language).1.currentLanguage = language ∧
    emitsOf (LanguageController.loadLanguage env st language).2 = [] := by
  rw [LanguageController.loadLanguage_eq]
  by_cases hs : language = env.sysLocaleName.take 2 <;>
    by_cases hen : language = "en" <;>
    simp [h1, h2, h3, hcur, hs, hen, emitsOf, LanguageController.emitsOf_append]
  all_goals split <;> simp [emitsOf]

/-- Witness for C6: request "es" with no resource loadable at all. -/
theorem spec_c6_total_failure_witness :
    (LanguageController.loadLanguage envNoneLoadable stSpanish "es").1.currentLanguage
      = "es" ∧
    emitsOf (LanguageController.loadLanguage envNoneLoadable stSpanish "es").2 = [] :=
  spec_c6_total_failure envNoneLoadable stSpanish "es"
    (by decide) (by decide) (by decide) (by decide)

/-- C7: calling `setCurrentLanguage` with the current language (a supported
code, as every reachable `currentLanguage` is under the documented resource
store) changes nothing — current language, installed translator and persisted
preference are untouched — and emits no notification of any kind. -/
theorem spec_c7_noop (env : Env) (st : LCState) (language : String)
    (hcur : st.currentLanguage = language)
    (hsup : Language.isSupported language = true) :
    LanguageController.setCurrentLanguage env st language = (st, []) := by
  have hE := LanguageController.isSupported_not_empty language hsup
  have hmem : language ∈ LanguageController.availableLanguages :=
    (LanguageController.mem_availableLanguages language).mpr hsup
  simp [LanguageController.setCurrentLanguage, hE, hmem, hcur]

/-- Witness for C7: re-requesting the current "en". -/
theorem spec_c7_noop_witness :
    LanguageController.setCurrentLanguage envSupportedOnly stEnglish "en" =
      (stEnglish, []) :=
  spec_c7_noop envSupportedOnly stEnglish "en" (by decide) (by decide)

/-- C8: on every validated, state-changing call, the persisted preference
under key "language" is written exactly once, with the requested code, as the
very first effect of the run — before any load attempt of the Load Algorithm —
so the final persisted value is the requested code even when a fallback later
mutates `currentLanguage`. -/
theorem spec_c8_persist_before_load (env : Env) (st : LCState) (language : String)
    (h1 : language.isEmpty = false) (h2 : Language.isSupported language = true)
    (h3 : st.currentLanguage ≠ language) :
    (LanguageController.setCurrentLanguage env st language).1.persistedLanguage =
      some language ∧
    writesOf (LanguageController.setCurrentLanguage env st language).2 =
      [("language", language)] ∧
    (LanguageController.setCurrentLanguage env st language).2.head? =
      some (Event.write "language" language) := by
  rw [LanguageController.setCurrentLanguage_valid env st language h1 h2 h3]
  refine ⟨?_, ?_, rfl⟩
  · simpa using LanguageController.loadLanguage_persisted env
      { st with currentLanguage := language, persistedLanguage := some language }
      language
  · simp [writesOf, LanguageController.writesOf_append,
      LanguageController.loadLanguage_writesOf]

/-- Witness for C8: requesting "es" when only "fr" is loadable — the fallback
hop moves `currentLanguage` to "fr", yet the persisted preference is "es". -/
theorem spec_c8_persist_before_load_witness :
    (LanguageController.setCurrentLanguage envFrOnly stEnglish "es").1.persistedLanguage
      = some "es" ∧
    writesOf (LanguageController.setCurrentLanguage envFrOnly stEnglish "es").2 =
      [("language", "es")] ∧
    (LanguageController.setCurrentLanguage envFrOnly stEnglish "es").2.head? =
      some (Event.write "language" "es") ∧
    (LanguageController.setCurrentLanguage envFrOnly stEnglish "es").1.currentLanguage
      = "fr" := by
  have h := spec_c8_persist_before_load envFrOnly stEnglish "es"
    (by decide) (by decide) (by decide)
  exact ⟨h.1, h.2.1, h.2.2, by decide⟩

/-- C9: `fromString` is a left inverse of `toString` on every enum value, and
`toString ∘ fromString` fixes exactly the supported strings (every
unsupported or empty string collapses to English, whose tag "en" differs from
it). -/
theorem spec_c9_roundtrip :
    (∀ c : Language.Code, Language.fromString (Language.toString c) = c) ∧
    (∀ s : String, Language.toString (Language.fromString s) = s ↔
      Language.isSupported s = true) := by
  constructor
  · intro c
    cases c <;> rfl
  · intro s
    by_cases h1 : s = "en" <;> by_cases h2 : s = "es" <;> by_cases h3 : s = "fr" <;>
      simp_all [Language.toString, Language.fromString, Language.isSupported, eq_comm]

/-- C10: on every non-success path of `setCurrentLanguage` — empty input,
unsupported input, or input equal to the current language — the run performs
no settings write and the persisted preference is unchanged. -/
theorem spec_c10_no_write_on_failure (env : Env) (st : LCState) (language : String)
    (h : language.isEmpty = true ∨ Language.isSupported language = false ∨
      st.currentLanguage = language) :
    writesOf (LanguageController.setCurrentLanguage env st language).2 = [] ∧
    (LanguageController.setCurrentLanguage env st language).1.persistedLanguage =
      st.persistedLanguage := by
  by_cases hE : language.isEmpty = true
  · simp [LanguageController.setCurrentLanguage, hE, writesOf]
  · by_cases hC : language ∈ LanguageController.availableLanguages
    · by_cases hEq : st.currentLanguage = language
      · simp [LanguageController.setCurrentLanguage, hE, hC, hEq, writesOf]
      · exfalso
        rcases h with h | h | h
        · exact hE h
        · rw [LanguageController.mem_availableLanguages] at hC
          simp [h] at hC
        · exact hEq h
    · simp [LanguageController.setCurrentLanguage, hE, hC, writesOf]

/-- Witness for C10: the unsupported request "de" writes nothing. -/
theorem spec_c10_no_write_on_failure_witness :
    writesOf (LanguageController.setCurrentLanguage envSupportedOnly stEnglish "de").2
      = [] ∧
    (LanguageController.setCurrentLanguage envSupportedOnly stEnglish "de").1.persistedLanguage
      = some "en" := by
  have h := spec_c10_no_write_on_failure envSupportedOnly stEnglish "de"
    (Or.inr (Or.inl (by decide)))
  exact ⟨h.1, h.2.trans (by decide)⟩
